import Mathlib

/-!
Verification of `periodic_capture.py` (GoPro periodic-capture client).

This file gives a shallow embedding of the core capture-detect-transfer
loop of `OpenGoProClient`:

* `get`              — the retrying HTTP GET wrapper (`OpenGoProClient.get`),
                       modelled over an arbitrary sequence of per-attempt
                       outcomes, together with the effects it performs;
* `get_media_list`   — parsing of the `/gopro/media/list` response into
                       `folder/name` keys, with Python's dynamic semantics
                       (`in`, subscripting, `len`, iteration, f-strings)
                       made explicit so that every exception path of the
                       `try`/`except` block is visible;
* `get_last_media`   — the model-dependent fast path, including the
                       attribute accesses `new_media.folder` / `new_media.file`
                       that raise `AttributeError` on any JSON value;
* `waitAux`/`cycleBody`/`take_photo_and_download`
                     — the wait-for-media polling loop and one full
                       capture cycle, with monotonic time advanced by the
                       `time.sleep(wait_time)` calls;
* `download_photo` / `delete_file` / `download_and_delete`
                     — the transfer phase, as a trace of effects.

Machine responses are data: a transport outcome is `none` (the failure
sentinel returned by `get`) or a parsed/unparseable JSON body.  Python
exceptions are `Except Unit` failures and are caught exactly where the
source catches them.
-/

/-- JSON values as returned by `response.json()`. -/
inductive Json where
  | null : Json
  | bool : Bool → Json
  | num : Int → Json
  | str : String → Json
  | arr : List Json → Json
  | obj : List (String × Json) → Json

mutual

/-- Python `==` on JSON values (used by `in` on lists). -/
def jsonEq : Json → Json → Bool
  | .null, .null => true
  | .bool a, .bool b => a == b
  | .num a, .num b => a == b
  | .str a, .str b => a == b
  | .arr a, .arr b => jsonEqList a b
  | .obj a, .obj b => jsonEqObj a b
  | _, _ => false

def jsonEqList : List Json → List Json → Bool
  | [], [] => true
  | a :: as, b :: bs => jsonEq a b && jsonEqList as bs
  | _, _ => false

def jsonEqObj : List (String × Json) → List (String × Json) → Bool
  | [], [] => true
  | (k, v) :: as, (k', v') :: bs => k == k' && jsonEq v v' && jsonEqObj as bs
  | _, _ => false

end

mutual

/-- Python `str()` of a JSON value, as interpolated by an f-string.
The capture code only ever formats the `d` and `n` fields, which are
strings in every case the theorems below exercise; container cases
follow Python's recursive rendering shape. -/
def pyStr : Json → String
  | .null => "None"
  | .bool b => cond b "True" "False"
  | .num n => toString n
  | .str s => s
  | .arr l => "[" ++ pyStrList l ++ "]"
  | .obj l => "\x7b" ++ pyStrObj l ++ "\x7d"

def pyStrList : List Json → String
  | [] => ""
  | [x] => pyStr x
  | x :: xs => pyStr x ++ ", " ++ pyStrList xs

def pyStrObj : List (String × Json) → String
  | [] => ""
  | [(k, v)] => k ++ ": " ++ pyStr v
  | (k, v) :: xs => k ++ ": " ++ pyStr v ++ ", " ++ pyStrObj xs

end

/-- Does `pat` occur at the head of `txt`? (helper for Python `in` on strings). -/
def headMatch : List Char → List Char → Bool
  | [], _ => true
  | _ :: _, [] => false
  | p :: ps, t :: ts => p == t && headMatch ps ts

/-- Does `pat` occur anywhere inside `txt`? (Python `sub in s` on strings). -/
def hasSubChars (pat : List Char) : List Char → Bool
  | [] => headMatch pat []
  | t :: ts => headMatch pat (t :: ts) || hasSubChars pat ts

/-- Python `k in v`: key membership for dicts, `==`-membership for lists,
substring test for strings; `TypeError` for non-container values. -/
def pyIn (k : String) : Json → Except Unit Bool
  | .obj kvs => .ok (kvs.any (fun kv => kv.1 == k))
  | .arr l => .ok (l.any (fun x => jsonEq x (.str k)))
  | .str s => .ok (hasSubChars k.data s.data)
  | _ => .error ()

/-- Python `v[k]` with a string key: dict lookup (`KeyError` when absent),
`TypeError` on lists, strings and scalars. -/
def pyIndexKey (v : Json) (k : String) : Except Unit Json :=
  match v with
  | .obj kvs =>
    match kvs.find? (fun kv => kv.1 == k) with
    | some kv => .ok kv.2
    | none => .error ()
  | _ => .error ()

/-- Python `v[i]` with a non-negative integer index: list/string indexing
(`IndexError` out of range), `KeyError` on dicts, `TypeError` on scalars. -/
def pyIndexNat (v : Json) (i : Nat) : Except Unit Json :=
  match v with
  | .arr l =>
    match l.get? i with
    | some x => .ok x
    | none => .error ()
  | .str s =>
    match s.data.get? i with
    | some c => .ok (.str (String.mk [c]))
    | none => .error ()
  | _ => .error ()

/-- Python `len(v)`: defined for lists, strings and dicts; `TypeError` otherwise. -/
def pyLen : Json → Except Unit Nat
  | .arr l => .ok l.length
  | .str s => .ok s.data.length
  | .obj kvs => .ok kvs.length
  | _ => .error ()

/-- Python iteration `for item in v`: elements of a list, characters of a
string, keys of a dict; `TypeError` otherwise. -/
def pyIter : Json → Except Unit (List Json)
  | .arr l => .ok l
  | .str s => .ok (s.data.map (fun c => .str (String.mk [c])))
  | .obj kvs => .ok (kvs.map (fun kv => .str kv.1))
  | _ => .error ()

/-- Python attribute access `v.a` on a value returned by `response.json()`:
such values are dicts, lists, strings, numbers, booleans or `None`, none of
which has a `folder` or `file` attribute, so the access raises
`AttributeError` in every case. -/
def pyAttr (_v : Json) (_a : String) : Except Unit Json := .error ()

/-- Outcome of one underlying `requests.get` attempt: an exception
(`requests.RequestException`) or a response carrying an HTTP status code. -/
inductive AttemptOutcome where
  | exc : AttemptOutcome
  | resp (status : Nat) : AttemptOutcome
deriving DecidableEq

/-- Observable actions of `OpenGoProClient.get`.  `acquireLock` would be an
acquisition of `self.lock` (created in `__init__`); `request i` is the
`requests.get` call of attempt `i`. -/
inductive GetEffect where
  | acquireLock : GetEffect
  | request (attempt : Nat) : GetEffect
deriving DecidableEq

/-- Result of `OpenGoProClient.get`: the index of the attempt whose response
was returned (the source returns the response object itself; responses are
identified here by their attempt index), the number of attempts made, and
the effects performed. -/
structure GetResult where
  result : Option Nat
  attempts : Nat
  effects : List GetEffect
deriving DecidableEq

/-- The test `response.status_code == 200` (an exception means there is no
response to test; the `except` arm falls through like a failed test). -/
def isSuccess : AttemptOutcome → Bool
  | .exc => false
  | .resp s => s == 200

/-- Loop body of `OpenGoProClient.get`: `while attempt < retries` try the
request; return on HTTP 200; an exception or a non-200 status consumes one
attempt (`attempt += 1`); after the loop, `return None`.  The countdown
`n` is `retries - attempt`. -/
def getAux (outcome : Nat → AttemptOutcome) : Nat → Nat → GetResult
  | 0, attempt => ⟨none, attempt, []⟩
  | n + 1, attempt =>
    if isSuccess (outcome attempt) then ⟨some attempt, attempt + 1, [.request attempt]⟩
    else
      let r := getAux outcome n (attempt + 1)
      ⟨r.result, r.attempts, .request attempt :: r.effects⟩

/-- `OpenGoProClient.get(url, stream, retries, timeout)` over a sequence of
per-attempt outcomes.  The source never touches `self.lock` in this method,
so no `acquireLock` effect is ever emitted. -/
def OpenGoProClient.get (outcome : Nat → AttemptOutcome) (retries : Nat) : GetResult :=
  getAux outcome retries 0

/-- Body of a 200 response to a JSON endpoint, as seen by the caller of
`get`: `none` is the failure sentinel (`get` returned `None`),
`some (.error ())` is a 200 response whose `.json()` raises, and
`some (.ok j)` is a parsed body. -/
abbrev JsonResponse := Option (Except Unit Json)

/-- The comprehension `[f"{folder}/{item['n']}" for item in ...]` of
`get_media_list`, evaluated left to right, propagating the first raised
exception. -/
def mediaComp (folder : Json) : List Json → Except Unit (List String)
  | [] => pure []
  | item :: rest => do
    let n ← pyIndexKey item "n"
    let tail ← mediaComp folder rest
    pure ((pyStr folder ++ "/" ++ pyStr n) :: tail)

/-- Body of `get_media_list` inside its `try`: the condition
`"media" in media_list and len(media_list["media"]) > 0`, then
`folder = media_list["media"][0]["d"]` and the comprehension over
`media_list["media"][0]["fs"]`.  `.ok none` is the fall-through
`return None`; `.error ()` is a raised exception. -/
def mediaListParse (j : Json) : Except Unit (Option (List String)) := do
  let inMedia ← pyIn "media" j
  if inMedia then
    let m ← pyIndexKey j "media"
    let n ← pyLen m
    if 0 < n then
      let f0 ← pyIndexNat m 0
      let folder ← pyIndexKey f0 "d"
      let fsv ← pyIndexKey f0 "fs"
      let items ← pyIter fsv
      let files ← mediaComp folder items
      pure (some files)
    else
      pure none
  else
    pure none

/-- `OpenGoProClient.get_media_list`: `None` on transport failure, on any
exception inside the `try` (JSON parse failure, `TypeError`, `KeyError`,
...) and on the fall-through when the listing has no `media` entry or an
empty `media` array; otherwise the flattened `folder/name` keys. -/
def get_media_list (resp : JsonResponse) : Option (List String) :=
  match resp with
  | none => none
  | some (.error _) => none
  | some (.ok j) =>
    match mediaListParse j with
    | .ok r => r
    | .error _ => none

/-- A well-formed `/gopro/media/list` body in the shape the spec describes:
one folder entry `d` containing a sequence `fs` of file entries `n`. -/
def mkListing (folder : String) (names : List String) : Json :=
  .obj [("media", .arr [
    .obj [("d", .str folder),
          ("fs", .arr (names.map (fun n => .obj [("n", .str n)])))]])]

/-- `OpenGoProClient.get_last_media`: on a 200 response the code prints
`new_media.folder`, an attribute access on the decoded JSON value, which
raises `AttributeError`; the `except` swallows it and the function falls
through to `return []`.  Every path returns `[]`. -/
def get_last_media (resp : JsonResponse) : List String :=
  match resp with
  | none => []
  | some (.error _) => []
  | some (.ok j) =>
    match pyAttr j "folder" with
    | .error _ => []
    | .ok _ =>
      match pyAttr j "file" with
      | .error _ => []
      | .ok _ => []

/-- Lexicographic (code-point) comparison of character lists, Python's
`<=` on strings restricted to how `sorted` uses it. -/
def charsLe : List Char → List Char → Bool
  | [], _ => true
  | _ :: _, [] => false
  | a :: as, b :: bs => if a < b then true else if b < a then false else charsLe as bs

/-- Python's `<=` on strings: lexicographic by code point. -/
def pyLe (a b : String) : Bool := charsLe a.data b.data

/-- The ordering `sorted` sorts by, as a decidable relation. -/
def pyLeRel (a b : String) : Prop := pyLe a b = true

instance : DecidableRel pyLeRel := fun _ _ => inferInstanceAs (Decidable (_ = true))

/-- `list(set(new_media_list) - set(media_list))`: the elements of `l` not
in `old`, with set (duplicate-free) semantics. -/
def newFiles (l old : List String) : List String :=
  (l.filter (fun k => decide (k ∉ old))).dedup

/-- `sorted(new_files)[-1]`: the last element of the ascending sort. -/
def latestPhoto (nf : List String) : Option String :=
  (List.insertionSort pyLeRel nf).getLast?

/-- How the wait-for-media `while` loop ended. -/
inductive ExitKind where
  | brk : ExitKind
  | timeout : ExitKind
  | raised : ExitKind
  | fuelOut : ExitKind
deriving DecidableEq

/-- Result of the wait-for-media loop: exit kind, elapsed monotonic time at
exit, the final value of the `new_media_list` variable, the number of
`get_media_list` calls made, and the number of loop iterations run. -/
structure WaitOut where
  exit : ExitKind
  time : Nat
  nml : Option (List String)
  polls : Nat
  iters : Nat
deriving DecidableEq

/-- Outcome of the generic-path loop step: break out with a grown listing,
continue with the stored `new_media_list`, or raise. -/
inductive CheckOutcome where
  | brk (l : List String) : CheckOutcome
  | cont (nml : Option (List String)) : CheckOutcome
  | raised : CheckOutcome
deriving DecidableEq

/-- The generic-path loop step
`if new_media_list and len(new_media_list) > len(media_list): break`:
a falsy `new_media_list` (`None` or `[]`) never breaks; a truthy one is
compared by length against the previous snapshot — `len(media_list)`
raises `TypeError` when the snapshot is `None`. -/
def growthCheck (r : Option (List String)) (old : Option (List String)) : CheckOutcome :=
  match r with
  | none => .cont none
  | some [] => .cont (some [])
  | some l =>
    match old with
    | none => .raised
    | some o => if o.length < l.length then .brk l else .cont (some l)

/-- The loop `while time.monotonic() - start_wait < max_wait_time`, with
time in milliseconds advanced by `time.sleep(wait_time)` (the polls
themselves are timeless).  On the fast path (`Hero12`/`Hero13`) the loop
calls `get_last_media` and discards the result; on the generic path it
polls `get_media_list` and applies `growthCheck`.  `fuel` is a modelling
bound on the iteration count, strictly larger than ever needed. -/
def waitAux (fast : Bool) (listings lastResp : Nat → JsonResponse)
    (old : Option (List String)) (T w : Nat) :
    Nat → Nat → Option (List String) → Nat → Nat → WaitOut
  | fuel, t, nml, polls, iters =>
    if t < T then
      match fuel with
      | 0 => ⟨.fuelOut, t, nml, polls, iters⟩
      | fuel + 1 =>
        if fast then
          let _nm := get_last_media (lastResp t)
          waitAux fast listings lastResp old T w fuel (t + w) nml polls (iters + 1)
        else
          match growthCheck (get_media_list (listings t)) old with
          | .brk l => ⟨.brk, t, some l, polls + 1, iters + 1⟩
          | .cont nml' =>
            waitAux fast listings lastResp old T w fuel (t + w) nml' (polls + 1) (iters + 1)
          | .raised => ⟨.raised, t, nml, polls + 1, iters + 1⟩
    else ⟨.timeout, t, nml, polls, iters⟩

/-- `max_wait_time = 3` seconds, in milliseconds. -/
def max_wait_time : Nat := 3000

/-- `wait_time = 0.5` seconds, in milliseconds. -/
def wait_time : Nat := 500

/-- `self.model == "Hero12" or self.model == "Hero13"`. -/
def isFastModel (model : String) : Bool :=
  model == "Hero12" || model == "Hero13"

/-- Environment of one capture cycle: the shutter-trigger outcome (`get`
returned a 200 response or the failure sentinel) and the device's
responses to the two polling endpoints at each elapsed time. -/
structure CycleEnv where
  triggerOk : Bool
  listings : Nat → JsonResponse
  lastResp : Nat → JsonResponse

/-- Outcome of the detection-and-transfer part of one cycle. -/
structure CycleDetect where
  wait : WaitOut
  transferred : Option String
  snapshot : Option (List String)
  errored : Bool
deriving DecidableEq

/-- Outcome of one full capture cycle. -/
structure CycleResult extends CycleDetect where
  triggerFailLogged : Bool
deriving DecidableEq

/-- The wait-for-media loop as entered by `take_photo_and_download`:
`start_wait = time.monotonic()`, `new_media_list = None`. -/
def waitPhase (model : String) (env : CycleEnv) (old : Option (List String)) : WaitOut :=
  waitAux (isFastModel model) env.listings env.lastResp old max_wait_time wait_time
    (max_wait_time + 1) 0 none 0 0

/-- The cycle after the trigger: run the wait loop, then
`if not new_media_list: continue`, else diff, select and transfer.  The
snapshot `media_list` is replaced only on a non-empty diff; a `TypeError`
(from `len(None)` in the loop or `set(None)` in the diff) is caught by the
outer `except` and leaves everything unchanged.  This part of the source
does not read `capture_response`. -/
def afterWait (w : WaitOut) (old : Option (List String)) : CycleDetect :=
  match w.exit with
  | .raised => ⟨w, none, old, true⟩
  | _ =>
    match w.nml with
    | none => ⟨w, none, old, false⟩
    | some [] => ⟨w, none, old, false⟩
    | some l =>
      match old with
      | none => ⟨w, none, old, true⟩
      | some o =>
        let nf := newFiles l o
        if nf = [] then ⟨w, none, old, false⟩
        else ⟨w, latestPhoto nf, some l, false⟩

/-- Detection and transfer for one cycle: the wait loop followed by the
post-wait diff/transfer logic. -/
def detectPhase (model : String) (env : CycleEnv) (old : Option (List String)) : CycleDetect :=
  afterWait (waitPhase model env old) old

/-- One iteration of the outer loop in which the photo-interval gate fired
(with `photo_interval = 0` that is every iteration): trigger the shutter,
log on failure (the `continue` on trigger failure is commented out in the
source, so the cycle proceeds regardless), then detect and transfer. -/
def cycleBody (model : String) (env : CycleEnv) (old : Option (List String)) : CycleResult :=
  ⟨detectPhase model env old, !env.triggerOk⟩

/-- The run loop: fold the capture cycles over the retained snapshot. -/
def runCycles (model : String) :
    List CycleEnv → Option (List String) → List CycleResult × Option (List String)
  | [], snap => ([], snap)
  | e :: es, snap =>
    let r := cycleBody model e snap
    (r :: (runCycles model es r.snapshot).1, (runCycles model es r.snapshot).2)

/-- `take_photo_and_download`: fetch the initial media list once, then run
the capture cycles. -/
def take_photo_and_download (model : String) (initResp : JsonResponse)
    (envs : List CycleEnv) : List CycleResult × Option (List String) :=
  runCycles model envs (get_media_list initResp)

/-- Observable actions of the transfer phase. -/
inductive Effect where
  | makedirs (dir : String)
  | httpGet (url : String)
  | writeLocal (path : String) (body : String)
deriving DecidableEq

/-- Accumulator pass of `os.path.basename`: restart after each `/`. -/
def basenameAux : List Char → List Char → List Char
  | [], acc => acc
  | c :: cs, acc => if c = '/' then basenameAux cs [] else basenameAux cs (acc ++ [c])

/-- `os.path.basename(filename)`: the part after the last `/`. -/
def basename (s : String) : String := String.mk (basenameAux s.data [])

/-- Characters after the first `//` (first step of `split('//')[1]`). -/
def afterDoubleSlash : List Char → List Char
  | [] => []
  | '/' :: '/' :: rest => rest
  | _ :: cs => afterDoubleSlash cs

/-- Characters up to the next `//` (completing `split('//')[1]`). -/
def upToDoubleSlash : List Char → List Char
  | [] => []
  | '/' :: '/' :: _ => []
  | c :: cs => c :: upToDoubleSlash cs

/-- Characters before the first `:` (`split(':')[0]`). -/
def upToColon : List Char → List Char
  | [] => []
  | ':' :: _ => []
  | c :: cs => c :: upToColon cs

/-- `self.base_url.split('//')[1].split(':')[0]`: the host part of the base
URL (the base URL always contains `//`, being built as `http://ip:port`). -/
def extract_ip (url : String) : String :=
  String.mk (upToColon (upToDoubleSlash (afterDoubleSlash url.data)))

/-- `self.base_url = f"http://{ip}:{port}"`. -/
def base_url (ip port : String) : String := "http://" ++ ip ++ ":" ++ port

/-- The direct-download URL built in `download_photo`. -/
def download_url (ip port filename : String) : String :=
  "http://" ++ extract_ip (base_url ip port) ++ ":8080/videos/DCIM/" ++ filename

/-- The delete URL built in `delete_file`. -/
def delete_url (ip port file : String) : String :=
  base_url ip port ++ "/gopro/media/delete/file?path=" ++ file

/-- `download_photo`: strip the directory from the filename, ensure the
`photos` directory exists, fetch the file, and on a 200 response stream the
body into `photos/<base filename>`.  A failure sentinel response only logs
(the `response.status_code` access in the log line raises and is caught). -/
def download_photo (ip port : String) (resp : Option String) (filename : String) :
    List Effect :=
  let filename_only := basename filename
  let local_filename := "photos/" ++ filename_only
  [.makedirs "photos", .httpGet (download_url ip port filename)] ++
    (match resp with
     | some body => [.writeLocal local_filename body]
     | none => [])

/-- `delete_file`: one GET to the delete endpoint; the response only
affects logging. -/
def delete_file (ip port : String) (file : String) : List Effect :=
  [.httpGet (delete_url ip port file)]

/-- `DELETE_FROM_SD = True`. -/
def DELETE_FROM_SD : Bool := true

/-- `download_and_delete`: download, then delete if the policy flag is set. -/
def download_and_delete (ip port : String) (delete_from_sd : Bool)
    (resp : Option String) (filename : String) : List Effect :=
  download_photo ip port resp filename ++
    (if delete_from_sd then delete_file ip port filename else [])

/-- A listing response containing only the third photo. -/
def listingG3 : Json := mkListing "100GOPRO" ["GOPR0003.JPG"]

/-- Device that answers every listing poll with `listingG3`. -/
def envShrunk : CycleEnv where
  triggerOk := true
  listings := fun _ => some (.ok listingG3)
  lastResp := fun _ => none

/-- Snapshot holding the first two photos. -/
def oldTwo : List String := ["100GOPRO/GOPR0001.JPG", "100GOPRO/GOPR0002.JPG"]

/-- Device whose trigger failed and whose listings all fail. -/
def envTriggerFail : CycleEnv where
  triggerOk := false
  listings := fun _ => none
  lastResp := fun _ => none

/-- Device answering the fast-path query with a well-formed last-captured
body, on a run whose snapshot held one photo. -/
def envFast : CycleEnv where
  triggerOk := true
  listings := fun _ => some (.ok (mkListing "100GOPRO" ["GOPR0001.JPG", "GOPR0002.JPG"]))
  lastResp := fun _ => some (.ok (.obj [("file", .str "GOPR0002.JPG"), ("folder", .str "100GOPRO")]))

/-- A transport stub whose every attempt raises. -/
def alwaysFail : Nat → AttemptOutcome := fun _ => .exc

/-- A transport stub failing the first attempt and succeeding on the second. -/
def failThenOk : Nat → AttemptOutcome := fun i => if i = 0 then .exc else .resp 200

/-! ## Transport lemmas -/

theorem getAux_attempts_le (o : Nat → AttemptOutcome) :
    ∀ n a, (getAux o n a).attempts ≤ a + n := by
  intro n
  induction n with
  | zero => intro a; simp [getAux]
  | succ n ih =>
    intro a
    by_cases h : isSuccess (o a) = true
    · simp only [getAux, if_pos h]
      omega
    · simp only [getAux, if_neg h]
      have := ih (a + 1)
      omega

theorem getAux_result_spec (o : Nat → AttemptOutcome) :
    ∀ n a i, (getAux o n a).result = some i →
      isSuccess (o i) = true ∧ a ≤ i ∧ i < a + n ∧
        ∀ j, a ≤ j → j < i → isSuccess (o j) = false := by
  intro n
  induction n with
  | zero => intro a i h; simp [getAux] at h
  | succ n ih =>
    intro a i h
    by_cases hs : isSuccess (o a) = true
    · simp [getAux, hs] at h
      subst h
      exact ⟨hs, Nat.le_refl _, by omega, fun j hj1 hj2 => absurd (Nat.lt_of_le_of_lt hj1 hj2) (lt_irrefl a)⟩
    · simp only [getAux, if_neg hs] at h
      obtain ⟨h1, h2, h3, h4⟩ := ih (a + 1) i h
      refine ⟨h1, by omega, by omega, fun j hj1 hj2 => ?_⟩
      rcases Nat.lt_or_ge j (a + 1) with hj | hj
      · have : j = a := by omega
        subst this
        exact Bool.eq_false_iff.mpr hs
      · exact h4 j hj hj2

theorem getAux_all_fail (o : Nat → AttemptOutcome) :
    ∀ n a, (∀ j, a ≤ j → j < a + n → isSuccess (o j) = false) →
      (getAux o n a).result = none ∧ (getAux o n a).attempts = a + n := by
  intro n
  induction n with
  | zero => intro a _; simp [getAux]
  | succ n ih =>
    intro a h
    have hs : isSuccess (o a) = false := h a (Nat.le_refl _) (by omega)
    have hs' : ¬isSuccess (o a) = true := by simp [hs]
    simp only [getAux, if_neg hs']
    have := ih (a + 1) (fun j hj1 hj2 => h j (by omega) (by omega))
    exact ⟨this.1, by omega⟩

theorem getAux_no_lock (o : Nat → AttemptOutcome) :
    ∀ n a, GetEffect.acquireLock ∉ (getAux o n a).effects := by
  intro n
  induction n with
  | zero => intro a; simp [getAux]
  | succ n ih =>
    intro a
    by_cases hs : isSuccess (o a) = true
    · simp [getAux, hs]
    · simp only [getAux, if_neg hs]
      intro hmem
      rcases List.mem_cons.mp hmem with h | h
      · exact GetEffect.noConfusion h
      · exact ih (a + 1) h

/-- C3: over every sequence of per-attempt outcomes, `get()` makes at most
`retries` attempts; when it returns a response, that response is the first
attempt with HTTP status 200 and lies within the first `retries` attempts;
when every one of the first `retries` attempts fails (exception or non-200
status, each consuming one attempt), it returns the failure sentinel after
exactly `retries` attempts.  The embedding is a total function: every
exception is consumed inside the loop, none escapes `get`'s boundary. -/
theorem get_retry_contract (outcome : Nat → AttemptOutcome) (retries : Nat) :
    (OpenGoProClient.get outcome retries).attempts ≤ retries
    ∧ (∀ i, (OpenGoProClient.get outcome retries).result = some i →
        isSuccess (outcome i) = true ∧ i < retries ∧
          ∀ j, j < i → isSuccess (outcome j) = false)
    ∧ ((∀ j, j < retries → isSuccess (outcome j) = false) →
        (OpenGoProClient.get outcome retries).result = none ∧ (OpenGoProClient.get outcome retries).attempts = retries) := by
  refine ⟨?_, ?_, ?_⟩
  · have := getAux_attempts_le outcome retries 0
    simpa [OpenGoProClient.get] using this
  · intro i h
    obtain ⟨h1, _, h3, h4⟩ := getAux_result_spec outcome retries 0 i h
    exact ⟨h1, by omega, fun j hj => h4 j (Nat.zero_le _) hj⟩
  · intro h
    have := getAux_all_fail outcome retries 0 (fun j _ hj2 => h j (by omega))
    simpa [OpenGoProClient.get] using this

/-- Witness for C3: a stub failing both of 2 attempts yields the sentinel
after exactly 2 attempts; a stub failing the first attempt and succeeding
on the second yields the second attempt's response. -/
theorem get_retry_contract_witness :
    (OpenGoProClient.get alwaysFail 2).result = none ∧ (OpenGoProClient.get alwaysFail 2).attempts = 2
    ∧ (OpenGoProClient.get failThenOk 2).result = some 1 :=
  ⟨((get_retry_contract alwaysFail 2).2.2 (by decide)).1,
   ((get_retry_contract alwaysFail 2).2.2 (by decide)).2,
   by decide⟩

/-- C9: `get()` performs its HTTP requests without ever acquiring
`self.lock` — the lock created in `__init__` "to prevent overlapping
requests" is never taken, so nothing in the transport makes access to the
shared connection exclusive, and concurrent callers' requests are not
serialized by the client. -/
theorem get_never_acquires_lock (outcome : Nat → AttemptOutcome) (retries : Nat) :
    GetEffect.acquireLock ∉ (OpenGoProClient.get outcome retries).effects :=
  getAux_no_lock outcome retries 0

/-! ## Lexicographic order lemmas -/

theorem charsLe_refl : ∀ l, charsLe l l = true := by
  intro l
  induction l with
  | nil => rfl
  | cons a as ih => simp [charsLe, lt_irrefl a, ih]

theorem charsLe_total : ∀ a b, charsLe a b = true ∨ charsLe b a = true := by
  intro a
  induction a with
  | nil => intro b; left; rfl
  | cons x xs ih =>
    intro b
    cases b with
    | nil => right; rfl
    | cons y ys =>
      rcases lt_trichotomy x y with h | h | h
      · left; simp [charsLe, h]
      · subst h
        rcases ih ys with h' | h'
        · left; simp [charsLe, lt_irrefl x, h']
        · right; simp [charsLe, lt_irrefl x, h']
      · right; simp [charsLe, h]

theorem charsLe_trans :
    ∀ a b c, charsLe a b = true → charsLe b c = true → charsLe a c = true := by
  intro a
  induction a with
  | nil => intro b c _ _; rfl
  | cons x xs ih =>
    intro b c hab hbc
    cases b with
    | nil => simp [charsLe] at hab
    | cons y ys =>
      cases c with
      | nil => simp [charsLe] at hbc
      | cons z zs =>
        rcases lt_trichotomy x y with hxy | hxy | hxy
        · rcases lt_trichotomy y z with hyz | hyz | hyz
          · simp [charsLe, lt_trans hxy hyz]
          · subst hyz; simp [charsLe, hxy]
          · simp [charsLe, lt_asymm hyz, hyz] at hbc
        · subst hxy
          rcases lt_trichotomy x z with hxz | hxz | hxz
          · simp [charsLe, hxz]
          · subst hxz
            simp only [charsLe, lt_irrefl x, if_false, if_neg (lt_irrefl x)] at hab hbc ⊢
            exact ih ys zs hab hbc
          · simp [charsLe, lt_asymm hxz, hxz] at hbc
        · simp [charsLe, lt_asymm hxy, hxy] at hab

theorem pyLe_refl (s : String) : pyLe s s = true := charsLe_refl s.data

/-- In a list sorted by `pyLeRel`, the last element bounds every element. -/
theorem sorted_pyLe_getLast_max :
    ∀ l : List String, List.Sorted pyLeRel l →
      ∀ m, l.getLast? = some m → ∀ x ∈ l, pyLe x m = true := by
  intro l
  induction l with
  | nil => intro _ m hm; simp at hm
  | cons a t ih =>
    intro hsorted m hm x hx
    obtain ⟨h1, h2⟩ := List.sorted_cons.mp hsorted
    cases t with
    | nil =>
      simp at hm
      subst hm
      rcases List.mem_singleton.mp hx with rfl
      exact pyLe_refl x
    | cons b t' =>
      rw [List.getLast?_cons_cons] at hm
      have hmem : m ∈ b :: t' := by
        obtain ⟨hne, rfl⟩ := List.mem_getLast?_eq_getLast (Option.mem_def.mpr hm)
        exact List.getLast_mem hne
      rcases List.mem_cons.mp hx with rfl | hx'
      · exact h1 m hmem
      · exact ih h2 m hm x hx'

/-- `sorted(nf)[-1]` on a non-empty list is an element of the list that
every element is lexicographically at most. -/
theorem latestPhoto_spec (nf : List String) (hne : nf ≠ []) :
    ∃ m, latestPhoto nf = some m ∧ m ∈ nf ∧ ∀ x ∈ nf, pyLe x m = true := by
  have hperm := List.perm_insertionSort pyLeRel nf
  have hsorted := @List.sorted_insertionSort String pyLeRel _
    ⟨fun a b => charsLe_total a.data b.data⟩
    ⟨fun a b c hab hbc => charsLe_trans a.data b.data c.data hab hbc⟩ nf
  have hne' : List.insertionSort pyLeRel nf ≠ [] := by
    intro h
    exact hne (List.perm_nil.mp (h ▸ hperm).symm)
  obtain ⟨m, hm⟩ : ∃ m, (List.insertionSort pyLeRel nf).getLast? = some m :=
    ⟨_, List.getLast?_eq_getLast_of_ne_nil hne'⟩
  refine ⟨m, hm, ?_, ?_⟩
  · have : m ∈ List.insertionSort pyLeRel nf := by
      obtain ⟨h, rfl⟩ := List.mem_getLast?_eq_getLast (Option.mem_def.mpr hm)
      exact List.getLast_mem h
    exact hperm.mem_iff.mp this
  · intro x hx
    exact sorted_pyLe_getLast_max _ hsorted m hm x (hperm.mem_iff.mpr hx)

/-- The computed diff has exactly the keys of `l` that are not in `o`. -/
theorem newFiles_toFinset (l o : List String) :
    (newFiles l o).toFinset = l.toFinset \ o.toFinset := by
  ext x
  simp [newFiles, List.mem_filter, Finset.mem_sdiff]

/-- C1: for media indices `old ⊊ new` (as key sets), the computed set of
new files `list(set(new) - set(old))` is exactly `new − old`, and the
selected "latest" photo `sorted(new_files)[-1]` is the lexicographic
(code-point) maximum of that difference set. -/
theorem new_files_diff_and_latest (l o : List String) (h : o.toFinset ⊂ l.toFinset) :
    (newFiles l o).toFinset = l.toFinset \ o.toFinset
    ∧ ∃ m, latestPhoto (newFiles l o) = some m ∧ m ∈ l.toFinset \ o.toFinset
        ∧ ∀ x, x ∈ l.toFinset \ o.toFinset → pyLe x m = true := by
  have hfin := newFiles_toFinset l o
  obtain ⟨x, hxl, hxo⟩ := Finset.exists_of_ssubset h
  have hxnew : x ∈ (newFiles l o).toFinset := by
    rw [hfin]
    exact Finset.mem_sdiff.mpr ⟨hxl, hxo⟩
  have hne : newFiles l o ≠ [] := by
    intro hnil
    rw [hnil] at hxnew
    simp at hxnew
  obtain ⟨m, hm1, hm2, hm3⟩ := latestPhoto_spec _ hne
  refine ⟨hfin, m, hm1, ?_, ?_⟩
  · rw [← hfin]
    exact List.mem_toFinset.mpr hm2
  · intro y hy
    have hy' : y ∈ (newFiles l o).toFinset := by rw [hfin]; exact hy
    exact hm3 y (List.mem_toFinset.mp hy')

/-- Witness for C1: the spec's concrete scenario — `G002.JPG` appears. -/
theorem new_files_diff_and_latest_witness :
    (newFiles ["100GOPRO/G001.JPG", "100GOPRO/G002.JPG"] ["100GOPRO/G001.JPG"]).toFinset
      = ["100GOPRO/G001.JPG", "100GOPRO/G002.JPG"].toFinset \ ["100GOPRO/G001.JPG"].toFinset
    ∧ ∃ m, latestPhoto (newFiles ["100GOPRO/G001.JPG", "100GOPRO/G002.JPG"]
          ["100GOPRO/G001.JPG"]) = some m
        ∧ m ∈ ["100GOPRO/G001.JPG", "100GOPRO/G002.JPG"].toFinset \ ["100GOPRO/G001.JPG"].toFinset
        ∧ ∀ x, x ∈ ["100GOPRO/G001.JPG", "100GOPRO/G002.JPG"].toFinset \ ["100GOPRO/G001.JPG"].toFinset
            → pyLe x m = true :=
  new_files_diff_and_latest _ _ (by decide)

/-! ## Media-index lemmas -/

theorem mediaComp_map (folder : String) (names : List String) :
    mediaComp (.str folder) (names.map (fun n => Json.obj [("n", .str n)]))
      = .ok (names.map (fun n => folder ++ "/" ++ n)) := by
  induction names with
  | nil => rfl
  | cons n ns ih =>
    simp only [List.map_cons, mediaComp, pyIndexKey, List.find?, beq_self_eq_true, ih]
    rfl

/-- C2: `get_media_list` returns the unknown sentinel (`None`) on transport
failure and on a 200 response whose body fails to parse; on a well-formed
listing (one folder entry with a sequence of file entries) it returns the
flattened `folder/name` keys; in particular a well-formed listing of an
empty device yields `Some []`, which differs from the unknown sentinel. -/
theorem get_media_list_mkListing (folder : String) (names : List String) :
    get_media_list (some (.ok (mkListing folder names)))
      = some (names.map (fun n => folder ++ "/" ++ n)) := by
  have h1 : mediaListParse (mkListing folder names)
      = some <$> mediaComp (.str folder) (names.map (fun n => Json.obj [("n", .str n)])) := rfl
  simp only [get_media_list, h1, mediaComp_map]
  rfl

theorem get_media_list_contract :
    get_media_list none = none
    ∧ get_media_list (some (.error ())) = none
    ∧ (∀ folder names,
        get_media_list (some (.ok (mkListing folder names)))
          = some (names.map (fun n => folder ++ "/" ++ n)))
    ∧ (∀ folder,
        get_media_list (some (.ok (mkListing folder []))) = some []
          ∧ some ([] : List String) ≠ (none : Option (List String))) := by
  refine ⟨rfl, rfl, fun folder names => get_media_list_mkListing folder names,
    fun folder => ⟨?_, fun h => Option.noConfusion h⟩⟩
  simpa using get_media_list_mkListing folder []

/-! ## Cycle lemmas -/

theorem cycleBody_none (model : String) (env : CycleEnv) :
    (cycleBody model env none).snapshot = none
    ∧ (cycleBody model env none).transferred = none := by
  unfold cycleBody detectPhase
  generalize waitPhase model env none = w
  rcases w with ⟨ek, tm, nml, polls, iters⟩
  cases ek <;> rcases nml with _ | ⟨_ | ⟨x, l⟩⟩ <;> simp [afterWait]

/-- C10: if the initial media-listing fetch returns the failure sentinel,
then on the generic full-listing path the retained snapshot stays `None`
for the whole run: no cycle ever replaces it and no cycle ever transfers a
file (the first truthy poll raises `TypeError` at the length comparison,
which the `except` swallows; falsy polls skip via `if not new_media_list`). -/
theorem initial_none_never_transfers (model : String) (initResp : JsonResponse)
    (envs : List CycleEnv) (_hmodel : isFastModel model = false)
    (hinit : get_media_list initResp = none) :
    (take_photo_and_download model initResp envs).2 = none
    ∧ ∀ r ∈ (take_photo_and_download model initResp envs).1,
        r.snapshot = none ∧ r.transferred = none := by
  unfold take_photo_and_download
  rw [hinit]
  induction envs with
  | nil => exact ⟨rfl, by simp [runCycles]⟩
  | cons e es ih =>
    have hinv := cycleBody_none model e
    simp only [runCycles, hinv.1]
    refine ⟨ih.1, ?_⟩
    intro r hr
    rcases List.mem_cons.mp hr with rfl | hr'
    · exact hinv
    · exact ih.2 r hr'

/-- Witness for C10: a failed initial fetch followed by one cycle in which
the device reports a fresh photo; nothing is transferred. -/
theorem initial_none_never_transfers_witness :
    (take_photo_and_download "Hero10" none [envShrunk]).2 = none
    ∧ ∀ r ∈ (take_photo_and_download "Hero10" none [envShrunk]).1,
        r.snapshot = none ∧ r.transferred = none :=
  initial_none_never_transfers "Hero10" none [envShrunk] rfl rfl

/-! ## Fast-path lemmas -/

theorem waitAux_fast_inv (listings lastResp : Nat → JsonResponse)
    (old : Option (List String)) (T w : Nat) (nml : Option (List String)) (polls : Nat) :
    ∀ fuel t iters,
      (waitAux true listings lastResp old T w fuel t nml polls iters).nml = nml
      ∧ (waitAux true listings lastResp old T w fuel t nml polls iters).polls = polls := by
  intro fuel
  induction fuel with
  | zero =>
    intro t iters
    by_cases h : t < T <;> simp [waitAux, h]
  | succ n ih =>
    intro t iters
    by_cases h : t < T
    · simp only [waitAux, if_pos h]
      exact ih (t + w) (iters + 1)
    · simp [waitAux, if_neg h]

/-- C7: the fast-path result is never integrated into detection.
`get_last_media` returns `[]` on every input (the attribute accesses
`new_media.folder` / `new_media.file` raise `AttributeError`, which the
`except` swallows), and on `Hero12`/`Hero13` the wait loop discards even
that value: `new_media_list` stays `None`, no `get_media_list` poll is
made, and the cycle ends with no transfer and an unchanged snapshot,
whatever the device reports. -/
theorem fast_path_result_discarded :
    (∀ resp, get_last_media resp = [])
    ∧ ∀ (model : String) (env : CycleEnv) (old : Option (List String)),
        isFastModel model = true →
          (cycleBody model env old).wait.polls = 0
          ∧ (cycleBody model env old).transferred = none
          ∧ (cycleBody model env old).snapshot = old := by
  constructor
  · intro resp
    cases resp with
    | none => rfl
    | some e =>
      cases e with
      | error u => rfl
      | ok j => rfl
  · intro model env old hfast
    unfold cycleBody detectPhase waitPhase
    rw [hfast]
    have hinv := waitAux_fast_inv env.listings env.lastResp old max_wait_time wait_time
      none 0 (max_wait_time + 1) 0 0
    generalize hw : waitAux true env.listings env.lastResp old max_wait_time wait_time
      (max_wait_time + 1) 0 none 0 0 = w at hinv
    obtain ⟨hnml, hpolls⟩ := hinv
    rcases w with ⟨ek, tm, nml, polls, iters⟩
    simp only at hnml hpolls
    subst hnml
    subst hpolls
    cases ek <;> simp [afterWait]

/-- Witness for C7: a `Hero12` whose `last_captured` endpoint answers with
a well-formed body after a new photo; the result is discarded and nothing
is transferred. -/
theorem fast_path_result_discarded_witness :
    get_last_media (some (.ok (.obj [("file", .str "GOPR0002.JPG"),
        ("folder", .str "100GOPRO")]))) = []
    ∧ (cycleBody "Hero12" envFast (some ["100GOPRO/GOPR0001.JPG"])).transferred = none
    ∧ (cycleBody "Hero12" envFast (some ["100GOPRO/GOPR0001.JPG"])).snapshot
        = some ["100GOPRO/GOPR0001.JPG"] :=
  ⟨fast_path_result_discarded.1 _,
   (fast_path_result_discarded.2 "Hero12" envFast _ rfl).2.1,
   (fast_path_result_discarded.2 "Hero12" envFast _ rfl).2.2⟩

/-! ## Trigger-failure lemmas -/

theorem waitAux_iters_le (fast : Bool) (listings lastResp : Nat → JsonResponse)
    (old : Option (List String)) (T w : Nat) :
    ∀ fuel t nml polls iters,
      iters ≤ (waitAux fast listings lastResp old T w fuel t nml polls iters).iters := by
  intro fuel
  induction fuel with
  | zero =>
    intro t nml polls iters
    by_cases h : t < T <;> simp [waitAux, h]
  | succ n ih =>
    intro t nml polls iters
    by_cases h : t < T
    · rw [waitAux]
      simp only [if_pos h]
      by_cases hfast : fast = true
      · simp only [if_pos hfast]
        exact le_trans (Nat.le_succ iters) (ih (t + w) nml polls (iters + 1))
      · simp only [if_neg hfast]
        rcases hg : growthCheck (get_media_list (listings t)) old with l | nm | _ <;>
          simp only [hg]
        · simp
        · exact le_trans (Nat.le_succ iters) (ih (t + w) nm (polls + 1) (iters + 1))
        · simp
    · simp [waitAux, h]

theorem waitAux_iters_pos (fast : Bool) (listings lastResp : Nat → JsonResponse)
    (old : Option (List String)) (T w : Nat) :
    ∀ fuel t nml polls iters, t < T → 0 < fuel →
      iters < (waitAux fast listings lastResp old T w fuel t nml polls iters).iters := by
  intro fuel t nml polls iters ht hf
  match fuel, hf with
  | n + 1, _ =>
    rw [waitAux]
    simp only [if_pos ht]
    by_cases hfast : fast = true
    · simp only [if_pos hfast]
      exact Nat.lt_of_lt_of_le (Nat.lt_succ_self iters)
        (waitAux_iters_le fast listings lastResp old T w n (t + w) nml polls (iters + 1))
    · simp only [if_neg hfast]
      rcases hg : growthCheck (get_media_list (listings t)) old with l | nm | _ <;>
        simp only [hg]
      · simp
      · exact Nat.lt_of_lt_of_le (Nat.lt_succ_self iters)
          (waitAux_iters_le fast listings lastResp old T w n (t + w) nm (polls + 1) (iters + 1))
      · simp

/-- C4 counterexample: a concrete cycle whose shutter trigger failed
(`triggerOk = false`); the failure is logged, yet the cycle does not
return to idle — it runs the wait-for-media phase in full, polling the
media listing 6 times over the whole 3000 ms wait budget (the source's
`continue` after the failure log is commented out). -/
theorem trigger_failure_counterexample :
    envTriggerFail.triggerOk = false
    ∧ (cycleBody "Hero10" envTriggerFail (some [])).triggerFailLogged = true
    ∧ (cycleBody "Hero10" envTriggerFail (some [])).wait.polls = 6
    ∧ (cycleBody "Hero10" envTriggerFail (some [])).wait.time = 3000 := by
  exact ⟨rfl, rfl, by decide, by decide⟩

/-- C4 (amended): whenever the shutter-trigger request fails, the capture
cycle logs the failure and proceeds to the wait-for-media phase anyway —
the detection/transfer part of the cycle is identical to that of a cycle
whose trigger succeeded, and the wait loop runs at least one iteration.
No backoff is applied to the trigger itself (it is attempted once per
cycle, via `get`'s bounded retries only). -/
theorem trigger_failure_proceeds (model : String) (env : CycleEnv)
    (old : Option (List String)) (h : env.triggerOk = false) :
    (cycleBody model env old).triggerFailLogged = true
    ∧ (cycleBody model env old).toCycleDetect
        = (cycleBody model { env with triggerOk := true } old).toCycleDetect
    ∧ 0 < (waitPhase model env old).iters := by
  refine ⟨by simp [cycleBody, h], rfl, ?_⟩
  unfold waitPhase
  exact waitAux_iters_pos (isFastModel model) env.listings env.lastResp old
    max_wait_time wait_time (max_wait_time + 1) 0 none 0 0 (by decide) (by decide)

/-- Witness for C4's amended statement at a concrete failed trigger. -/
theorem trigger_failure_proceeds_witness :
    (cycleBody "Hero10" envTriggerFail (some [])).triggerFailLogged = true
    ∧ (cycleBody "Hero10" envTriggerFail (some [])).toCycleDetect
        = (cycleBody "Hero10" { envTriggerFail with triggerOk := true } (some [])).toCycleDetect
    ∧ 0 < (waitPhase "Hero10" envTriggerFail (some [])).iters :=
  trigger_failure_proceeds "Hero10" envTriggerFail (some []) rfl

/-! ## Snapshot-retention lemmas -/

theorem afterWait_nml_none (w : WaitOut) (old : Option (List String)) (h : w.nml = none) :
    (afterWait w old).snapshot = old ∧ (afterWait w old).transferred = none := by
  rcases w with ⟨ek, tm, nml, polls, iters⟩
  obtain rfl : nml = none := h
  cases ek <;> simp [afterWait]

theorem afterWait_nml_empty (w : WaitOut) (old : Option (List String)) (h : w.nml = some []) :
    (afterWait w old).snapshot = old ∧ (afterWait w old).transferred = none := by
  rcases w with ⟨ek, tm, nml, polls, iters⟩
  obtain rfl : nml = some [] := h
  cases ek <;> simp [afterWait]

theorem afterWait_errored (w : WaitOut) (old : Option (List String))
    (h : (afterWait w old).errored = true) :
    (afterWait w old).snapshot = old ∧ (afterWait w old).transferred = none := by
  rcases w with ⟨ek, tm, nml, polls, iters⟩
  cases ek <;> rcases nml with _ | ⟨_ | ⟨x, xs⟩⟩ <;> rcases old with _ | o <;>
      simp [afterWait] at h ⊢ <;>
    · by_cases hnf : newFiles (x :: xs) o = [] <;> simp [afterWait, hnf] at h ⊢

theorem afterWait_no_diff (w : WaitOut) (old : Option (List String)) (l o : List String)
    (h : w.nml = some l) (ho : old = some o) (hnf : newFiles l o = []) :
    (afterWait w old).snapshot = old ∧ (afterWait w old).transferred = none := by
  subst ho
  rcases w with ⟨ek, tm, nml, polls, iters⟩
  obtain rfl : nml = some l := h
  rcases l with _ | ⟨x, xs⟩
  · cases ek <;> simp [afterWait]
  · cases ek <;> simp [afterWait, hnf]

theorem afterWait_success (w : WaitOut) (old : Option (List String)) (l o : List String)
    (h : w.nml = some l) (ho : old = some o) (hek : w.exit ≠ ExitKind.raised)
    (hnf : newFiles l o ≠ []) :
    (afterWait w old).snapshot = some l
    ∧ (afterWait w old).transferred = latestPhoto (newFiles l o) := by
  subst ho
  rcases w with ⟨ek, tm, nml, polls, iters⟩
  obtain rfl : nml = some l := h
  rcases l with _ | ⟨x, xs⟩
  · exact absurd rfl hnf
  · cases ek
    · simp [afterWait, hnf]
    · simp [afterWait, hnf]
    · exact absurd rfl hek
    · simp [afterWait, hnf]

/-- C5 counterexample: snapshot `{GOPR0001, GOPR0002}`, device listing
answering `{GOPR0003}` on every poll.  The listing never grows (1 < 2, so
the loop runs to its timeout), yet the cycle transfers `GOPR0003` and
replaces the retained snapshot — the claim's "snapshot left unchanged on
timeout" is false on the code. -/
theorem timeout_replaces_snapshot_counterexample :
    (waitPhase "Hero10" envShrunk (some oldTwo)).exit = ExitKind.timeout
    ∧ (cycleBody "Hero10" envShrunk (some oldTwo)).snapshot ≠ some oldTwo
    ∧ (cycleBody "Hero10" envShrunk (some oldTwo)).transferred
        = some "100GOPRO/GOPR0003.JPG" := by
  exact ⟨by decide, by decide, by decide⟩

/-- C5 (amended): if the wait phase ends with the failure sentinel (or an
empty listing) as the last poll value, or a `TypeError` was raised, the
retained snapshot and transfer are unchanged — a failed listing query is
never interpreted as an empty diff; if the final listing contains no files
outside the snapshot, the snapshot is likewise unchanged; but when the
final listing does contain files outside the snapshot — even if the wait
budget elapsed without a grown index — the cycle transfers the
lexicographically greatest such file and replaces the snapshot. -/
theorem snapshot_retention (model : String) (env : CycleEnv) (old : Option (List String)) :
    ((waitPhase model env old).nml = none →
      (cycleBody model env old).snapshot = old ∧ (cycleBody model env old).transferred = none)
    ∧ ((waitPhase model env old).nml = some [] →
      (cycleBody model env old).snapshot = old ∧ (cycleBody model env old).transferred = none)
    ∧ ((cycleBody model env old).errored = true →
      (cycleBody model env old).snapshot = old ∧ (cycleBody model env old).transferred = none)
    ∧ (∀ l o, (waitPhase model env old).nml = some l → old = some o → newFiles l o = [] →
      (cycleBody model env old).snapshot = old ∧ (cycleBody model env old).transferred = none)
    ∧ (∀ l o, (waitPhase model env old).nml = some l → old = some o →
        (waitPhase model env old).exit ≠ ExitKind.raised → newFiles l o ≠ [] →
      (cycleBody model env old).snapshot = some l
      ∧ (cycleBody model env old).transferred = latestPhoto (newFiles l o)) :=
  ⟨fun h => afterWait_nml_none (waitPhase model env old) old h,
   fun h => afterWait_nml_empty (waitPhase model env old) old h,
   fun h => afterWait_errored (waitPhase model env old) old h,
   fun l o h ho hnf => afterWait_no_diff (waitPhase model env old) old l o h ho hnf,
   fun l o h ho hek hnf => afterWait_success (waitPhase model env old) old l o h ho hek hnf⟩

/-- Witness for C5's amended statement: the timeout-with-shrunk-listing
device; the final listing's fresh file is transferred and the snapshot
replaced. -/
theorem snapshot_retention_witness :
    (cycleBody "Hero10" envShrunk (some oldTwo)).snapshot = some ["100GOPRO/GOPR0003.JPG"]
    ∧ (cycleBody "Hero10" envShrunk (some oldTwo)).transferred
        = latestPhoto (newFiles ["100GOPRO/GOPR0003.JPG"] oldTwo) :=
  (snapshot_retention "Hero10" envShrunk (some oldTwo)).2.2.2.2
    ["100GOPRO/GOPR0003.JPG"] oldTwo (by decide) rfl (by decide) (by decide)

/-! ## Wait-budget timing lemmas -/

theorem waitAux_timeout_bound (fast : Bool) (listings lastResp : Nat → JsonResponse)
    (old : Option (List String)) (T w : Nat) (_hw : 0 < w)
    (hcont : ∀ t, ∃ nm, growthCheck (get_media_list (listings t)) old = .cont nm) :
    ∀ fuel t nml polls iters, t < T + w → T < t + fuel * w →
      (waitAux fast listings lastResp old T w fuel t nml polls iters).exit = ExitKind.timeout
      ∧ T ≤ (waitAux fast listings lastResp old T w fuel t nml polls iters).time
      ∧ (waitAux fast listings lastResp old T w fuel t nml polls iters).time < T + w := by
  intro fuel
  induction fuel with
  | zero =>
    intro t nml polls iters h1 h2
    have hT : ¬t < T := by omega
    simp only [waitAux, if_neg hT]
    exact ⟨trivial, by omega, h1⟩
  | succ n ih =>
    intro t nml polls iters h1 h2
    by_cases ht : t < T
    · rw [waitAux]
      simp only [if_pos ht]
      have hrec : t + w < T + w ∧ T < (t + w) + n * w := by
        have hmul : (n + 1) * w = n * w + w := by ring
        constructor <;> omega
      by_cases hfast : fast = true
      · simp only [if_pos hfast]
        exact ih (t + w) nml polls (iters + 1) hrec.1 hrec.2
      · simp only [if_neg hfast]
        obtain ⟨nm, hg⟩ := hcont t
        simp only [hg]
        exact ih (t + w) nm (polls + 1) (iters + 1) hrec.1 hrec.2
    · simp only [waitAux, if_neg ht]
      exact ⟨trivial, by omega, h1⟩

/-- C6: with a wait budget of `T` and backoff interval `w > 0`, if the
media listing never grows (every generic poll's growth check continues —
in particular whenever every poll fails, or always returns an index no
larger than the snapshot), the wait loop exits by timeout at an elapsed
time `e` with `T ≤ e < T + w`.  Instantiating `T = 3000` ms and `w = 500`
ms gives the source's constants. -/
theorem wait_budget_timeout (fast : Bool) (listings lastResp : Nat → JsonResponse)
    (old : Option (List String)) (T w : Nat) (hw : 0 < w)
    (hnogrow : ∀ t, ∃ nm, growthCheck (get_media_list (listings t)) old = .cont nm) :
    (waitAux fast listings lastResp old T w (T + 1) 0 none 0 0).exit = ExitKind.timeout
    ∧ T ≤ (waitAux fast listings lastResp old T w (T + 1) 0 none 0 0).time
    ∧ (waitAux fast listings lastResp old T w (T + 1) 0 none 0 0).time < T + w := by
  have hmul : (T + 1) * w = T * w + w := by ring
  have hTw : T * 1 ≤ T * w := Nat.mul_le_mul_left T hw
  have h2 : T < 0 + (T + 1) * w := by omega
  exact waitAux_timeout_bound fast listings lastResp old T w hw hnogrow (T + 1) 0 none 0 0
    (by omega) h2

/-- Witness for C6 at the source's constants: a device whose every listing
poll fails; the loop times out at exactly 3000 ms, within one 500 ms
backoff of the budget. -/
theorem wait_budget_timeout_witness :
    (waitAux false (fun _ => none) (fun _ => none) (some []) 3000 500
        (3000 + 1) 0 none 0 0).exit = ExitKind.timeout
    ∧ 3000 ≤ (waitAux false (fun _ => none) (fun _ => none) (some []) 3000 500
        (3000 + 1) 0 none 0 0).time
    ∧ (waitAux false (fun _ => none) (fun _ => none) (some []) 3000 500
        (3000 + 1) 0 none 0 0).time < 3000 + 500 :=
  wait_budget_timeout false (fun _ => none) (fun _ => none) (some []) 3000 500
    (by decide) (fun t => ⟨none, rfl⟩)

/-! ## Transfer lemmas -/

theorem basenameAux_no_slash :
    ∀ (cs acc : List Char), (∀ c ∈ cs, c ≠ '/') → basenameAux cs acc = acc ++ cs := by
  intro cs
  induction cs with
  | nil => intro acc _; simp [basenameAux]
  | cons c cs ih =>
    intro acc h
    have hc : c ≠ '/' := h c (List.mem_cons_self c cs)
    simp only [basenameAux, if_neg hc]
    rw [ih (acc ++ [c]) (fun x hx => h x (List.mem_cons_of_mem c hx))]
    simp

theorem basenameAux_strip :
    ∀ (pre name acc : List Char), (∀ c ∈ name, c ≠ '/') →
      basenameAux (pre ++ '/' :: name) acc = name := by
  intro pre
  induction pre with
  | nil =>
    intro name acc h
    simp only [List.nil_append, basenameAux, if_pos rfl]
    rw [basenameAux_no_slash name [] h]
    simp
  | cons p ps ih =>
    intro name acc h
    by_cases hp : p = '/'
    · simp only [List.cons_append, basenameAux, if_pos hp]
      exact ih name [] h
    · simp only [List.cons_append, basenameAux, if_neg hp]
      exact ih name (acc ++ [p]) h

/-- `os.path.basename` strips the directory component. -/
theorem basename_strip (folder name : String) (h : ∀ c ∈ name.data, c ≠ '/') :
    basename (folder ++ "/" ++ name) = name := by
  unfold basename
  have hdata : (folder ++ "/" ++ name).data = folder.data ++ '/' :: name.data := by
    simp [String.data_append]
  rw [hdata, basenameAux_strip folder.data name.data [] h]

/-- C8: for a detected device path `folder/name`, the transfer ensures the
`photos` directory exists, and on a 200 download response streams the body
into `photos/name` — the base filename only, the directory component
stripped; when the delete-after-download flag is enabled, the whole trace
is the download trace followed by exactly one GET to the delete endpoint
for the same device path, so the single delete request is issued only
after the download attempt has completed.  (The disequality hypothesis
separates the download URL from the delete URL; it holds for every real
address, as the witness shows.) -/
theorem download_and_delete_contract (ip port : String) (flag : Bool) (resp : Option String)
    (folder name : String) (hname : ∀ c ∈ name.data, c ≠ '/')
    (hurl : Effect.httpGet (delete_url ip port (folder ++ "/" ++ name))
        ∉ download_photo ip port resp (folder ++ "/" ++ name)) :
    (Effect.makedirs "photos") ∈ download_and_delete ip port flag resp (folder ++ "/" ++ name)
    ∧ (∀ body, resp = some body →
        Effect.writeLocal ("photos/" ++ name) body
          ∈ download_and_delete ip port flag resp (folder ++ "/" ++ name))
    ∧ (flag = true →
        download_and_delete ip port flag resp (folder ++ "/" ++ name)
          = download_photo ip port resp (folder ++ "/" ++ name)
            ++ [Effect.httpGet (delete_url ip port (folder ++ "/" ++ name))]
        ∧ (download_and_delete ip port flag resp (folder ++ "/" ++ name)).count
            (Effect.httpGet (delete_url ip port (folder ++ "/" ++ name))) = 1) := by
  refine ⟨?_, ?_, ?_⟩
  · simp [download_and_delete, download_photo]
  · intro body hbody
    subst hbody
    simp [download_and_delete, download_photo, basename_strip folder name hname]
  · intro hflag
    subst hflag
    constructor
    · simp [download_and_delete, delete_file]
    · rw [show download_and_delete ip port true resp (folder ++ "/" ++ name)
          = download_photo ip port resp (folder ++ "/" ++ name)
            ++ [Effect.httpGet (delete_url ip port (folder ++ "/" ++ name))] by
        simp [download_and_delete, delete_file]]
      rw [List.count_append, List.count_eq_zero.mpr hurl]
      simp

/-- Witness for C8: concrete address, folder and filename with the delete
flag enabled; the body lands in `photos/GOPR0003.JPG` and one delete
request follows the download trace. -/
theorem download_and_delete_contract_witness :
    (Effect.makedirs "photos") ∈ download_and_delete "10.5.5.9" "8080" DELETE_FROM_SD
        (some "JPEGDATA") ("100GOPRO" ++ "/" ++ "GOPR0003.JPG")
    ∧ (∀ body, (some "JPEGDATA" : Option String) = some body →
        Effect.writeLocal ("photos/" ++ "GOPR0003.JPG") body
          ∈ download_and_delete "10.5.5.9" "8080" DELETE_FROM_SD (some "JPEGDATA")
              ("100GOPRO" ++ "/" ++ "GOPR0003.JPG"))
    ∧ (DELETE_FROM_SD = true →
        download_and_delete "10.5.5.9" "8080" DELETE_FROM_SD (some "JPEGDATA")
            ("100GOPRO" ++ "/" ++ "GOPR0003.JPG")
          = download_photo "10.5.5.9" "8080" (some "JPEGDATA")
              ("100GOPRO" ++ "/" ++ "GOPR0003.JPG")
            ++ [Effect.httpGet (delete_url "10.5.5.9" "8080"
                ("100GOPRO" ++ "/" ++ "GOPR0003.JPG"))]
        ∧ (download_and_delete "10.5.5.9" "8080" DELETE_FROM_SD (some "JPEGDATA")
              ("100GOPRO" ++ "/" ++ "GOPR0003.JPG")).count
            (Effect.httpGet (delete_url "10.5.5.9" "8080"
              ("100GOPRO" ++ "/" ++ "GOPR0003.JPG"))) = 1) :=
  download_and_delete_contract "10.5.5.9" "8080" DELETE_FROM_SD (some "JPEGDATA")
    "100GOPRO" "GOPR0003.JPG" (by decide) (by decide)
